import Mathlib

/-!
Shallow embedding of the shift-rostering core of `src/app.py`
(`is_assignment_valid`, the value-scoring block and recursion of
`solve_shift_puzzle`, the pre-assignment loop of `assign_night_shift_sets`,
and the draft seeding and request guard of `generate_shifts`).

Conventions of the embedding:
* Python `datetime.date` values are embedded as `Int` absolute day indices
  (`date + 1` is the next calendar day, matching `timedelta(days=1)`
  arithmetic; `required_staffing`, keyed by ISO date strings in the source,
  is keyed by the same indices, which is injective on dates).
  The epoch is chosen on a Sunday, so the source's
  `(date.weekday() + 1) % 7` (0 = Sunday, as stored in the database)
  becomes `date % 7`.  `start_day` denotes the index of day 1 of the
  target month, so the source's `date.day` is `date - start_day + 1` for
  dates of the target month (the only dates the program passes to the
  validator).
* Python dicts are embedded as association lists: `dGet` mirrors `.get`
  (first matching key), `dPut` mirrors dict assignment (update the
  existing key in place, append when the key is new, exactly like a
  Python dict preserving insertion order), `dDel` mirrors `del`.
* Shift kinds, employment types and experience are kept as the literal
  strings of the source (早 日1 日2 中 遅 夜 明 休 有, 正規職員 嘱託職員, 新人).
-/

namespace ShiftApp

/-- A row of `staff_availability`: weekday (0 = Sunday), shift kind,
and whether the staff can take that kind on that weekday. -/
structure Availability where
  day_of_week : Int
  shift_type : String
  is_available : Bool

/-- A `staff` row restricted to the fields the solver reads. -/
structure Staff where
  id : Nat
  employment_type : String
  experience : String
  availabilities : List Availability

/-- One staff's draft: the inner dict `date -> shift kind`. -/
abbrev StaffDraft := List (Int × String)

/-- The whole draft: the dict `staff id -> (date -> shift kind)`. -/
abbrev Draft := List (Nat × StaffDraft)

/-- `required_staffing`: dict `date -> (shift kind -> required count)`. -/
abbrev ReqStaffing := List (Int × List (String × Int))

/-- `m.get(d)` on the inner dict. -/
def dGet (m : StaffDraft) (d : Int) : Option String :=
  (m.find? (fun p => p.1 == d)).map (fun p => p.2)

/-- `m[d] = v` on the inner dict: update in place, append when new. -/
def dPut (m : StaffDraft) (d : Int) (v : String) : StaffDraft :=
  if m.any (fun p => p.1 == d) then
    m.map (fun p => if p.1 == d then (p.1, v) else p)
  else
    m ++ [(d, v)]

/-- `del m[d]` on the inner dict. -/
def dDel (m : StaffDraft) (d : Int) : StaffDraft :=
  m.filter (fun p => !(p.1 == d))

/-- `shift_draft[sid]` (the solver only reads ids that are keys;
a missing id is totalized to the empty dict). -/
def draftOf (dr : Draft) (sid : Nat) : StaffDraft :=
  match dr.find? (fun p => p.1 == sid) with
  | some p => p.2
  | none => []

/-- `shift_draft[sid][d] = v`. -/
def draftPut (dr : Draft) (sid : Nat) (d : Int) (v : String) : Draft :=
  dr.map (fun p => if p.1 == sid then (p.1, dPut p.2 d v) else p)

/-- `del shift_draft[sid][d]`. -/
def draftDel (dr : Draft) (sid : Nat) (d : Int) : Draft :=
  dr.map (fun p => if p.1 == sid then (p.1, dDel p.2 d) else p)

/-- `work_shifts = ["早", "日1", "日2", "中", "遅", "夜"]`. -/
def work_shifts : List String := ["早", "日1", "日2", "中", "遅", "夜"]

/-- The availability scan of rule 1: the first entry matching
(weekday, shift kind) decides; default is available. -/
def lookupAvailability (avs : List Availability) (dow : Int) (st : String) : Bool :=
  match avs.find? (fun a => a.day_of_week == dow && a.shift_type == st) with
  | some a => a.is_available
  | none => true

/-- The look-back loop of rule 3: number of consecutive WORK days
immediately before `date`, looking back at most `fuel` (= 4) days and
stopping at the first non-WORK day. -/
def prevWorkRun (sd : StaffDraft) (date : Int) : Nat → Nat
  | 0 => 0
  | n + 1 =>
    match dGet sd (date - 1) with
    | some s => if work_shifts.contains s then 1 + prevWorkRun sd (date - 1) n else 0
    | none => 0

/-- `list(shift_draft[staff.id].values()).count("休")`. -/
def count_holidays (sd : StaffDraft) : Nat :=
  (sd.filter (fun p => p.2 == "休")).length

/-- `required_staffing.get(date_str)` with the empty dict as default, as an association list. -/
def reqLookup (req : ReqStaffing) (d : Int) : List (String × Int) :=
  match req.find? (fun p => p.1 == d) with
  | some p => p.2
  | none => []

/-- `required_staffing.get(date_str).get(shift_type)` with defaults empty dict and 0. -/
def reqCount (req : ReqStaffing) (d : Int) (st : String) : Int :=
  match (reqLookup req d).find? (fun p => p.1 == st) with
  | some p => p.2
  | none => 0

/-- `sum(1 for sid in all_staff_ids if shift_draft[sid].get(date) == st)`. -/
def count_assigned_kind (dr : Draft) (ids : List Nat) (d : Int) (st : String) : Nat :=
  (ids.filter (fun sid => dGet (draftOf dr sid) d == some st)).length

/-- `shift_draft[sid].get(date) in work_shifts` (None is never a member). -/
def opt_is_work (o : Option String) : Bool :=
  match o with
  | some s => work_shifts.contains s
  | none => false

/-- `is_assignment_valid` (src/app.py lines 338-412): the hard-constraint
validator, a chain of early `return False` checks –
1 availability, 2 the post-night rules, night qualification,
3 the consecutive-work cap, 4 the holiday-quota rules,
5 the per-day staffing ceiling, 6 the trainee-solo rule. -/
def is_assignment_valid (staff : Staff) (date : Int) (shift_type : String)
    (shift_draft : Draft) (num_days : Int) (required_staffing : ReqStaffing)
    (all_staff_ids : List Nat) (target_holidays : Int) (start_day : Int) : Bool :=
  if lookupAvailability staff.availabilities (date % 7) shift_type = false then false
  else if shift_type = "明" ∧ dGet (draftOf shift_draft staff.id) (date - 1) ≠ some "夜" then false
  else if dGet (draftOf shift_draft staff.id) (date - 1) = some "夜"
      ∧ shift_type ∉ (["明", "休"] : List String) then false
  else if dGet (draftOf shift_draft staff.id) (date - 2) = some "夜"
      ∧ dGet (draftOf shift_draft staff.id) (date - 1) = some "明"
      ∧ shift_type ∉ (["休"] : List String) then false
  else if shift_type = "夜" ∧ staff.employment_type ∉ (["正規職員", "嘱託職員"] : List String) then false
  else if shift_type ∈ work_shifts
      ∧ 1 + prevWorkRun (draftOf shift_draft staff.id) date 4 > 4 then false
  else if shift_type = "休"
      ∧ (count_holidays (draftOf shift_draft staff.id) : Int) ≥ target_holidays then false
  else if shift_type ≠ "休"
      ∧ num_days - (date - start_day + 1) + 1
          < target_holidays - (count_holidays (draftOf shift_draft staff.id) : Int) then false
  else if shift_type ∈ work_shifts
      ∧ reqCount required_staffing date shift_type > 0
      ∧ (count_assigned_kind shift_draft all_staff_ids date shift_type : Int)
          ≥ reqCount required_staffing date shift_type then false
  else if staff.experience = "新人" ∧ shift_type ∈ work_shifts
      ∧ all_staff_ids.any (fun sid =>
          sid != staff.id && opt_is_work (dGet (draftOf shift_draft sid) date)) = false then false
  else true

/-- `base_shifts`, the candidate list of the scorer (line 428). -/
def base_shifts : List String := ["早", "日1", "日2", "中", "遅", "夜", "休", "明"]

/-- `shift_scores[k]` (keys of the score dict are always present
when read; a missing key is totalized to 0). -/
def scoreGet (sc : List (String × Int)) (k : String) : Int :=
  match sc.find? (fun p => p.1 == k) with
  | some p => p.2
  | none => 0

/-- `shift_scores[k] += v`. -/
def scoreAdd (sc : List (String × Int)) (k : String) (v : Int) : List (String × Int) :=
  sc.map (fun p => if p.1 == k then (p.1, p.2 + v) else p)

/-- The loop body of stage 1 of the value scorer of `solve_shift_puzzle`
(src/app.py lines 432-441, 緊急出勤ボーナス): for one
`(shift_type, required_count)` item of `required_staffing[date_str]`, when
the required count is positive, the kind is a score key and the current
per-day count falls short, add `200 * shortage` to that kind's score. -/
def urgent_bonus_step (shift_draft : Draft) (all_staff_ids : List Nat) (date : Int)
    (sc : List (String × Int)) (p : String × Int) : List (String × Int) :=
  if p.2 > 0 ∧ p.1 ∈ sc.map Prod.fst then
    if (count_assigned_kind shift_draft all_staff_ids date p.1 : Int) < p.2 then
      scoreAdd sc p.1 (200 * (p.2 - (count_assigned_kind shift_draft all_staff_ids date p.1 : Int)))
    else sc
  else sc

/-- The whole stage-1 loop: fold `urgent_bonus_step` over the items of
`required_staffing[date_str]`. -/
def apply_urgent_bonus (shift_draft : Draft) (all_staff_ids : List Nat) (date : Int)
    (required_staffing : ReqStaffing) (scores : List (String × Int)) : List (String × Int) :=
  (reqLookup required_staffing date).foldl
    (urgent_bonus_step shift_draft all_staff_ids date) scores

/-- `SHIFT_HOURS.get(st, 0)` (src/app.py line 459). -/
def shift_hours (st : String) : Int :=
  if st = "早" then 8 else if st = "日1" then 8 else if st = "日2" then 8
  else if st = "中" then 8 else if st = "遅" then 8 else if st = "夜" then 16
  else 0

/-- `current_hours = sum(SHIFT_HOURS.get(st, 0) for st in shift_draft[staff.id].values())`
(src/app.py line 460). -/
def shift_hours_total (sd : StaffDraft) : Int :=
  (sd.map (fun p => shift_hours p.2)).sum

/-- The per-solve constants threaded through `solve_shift_puzzle`.
`try_order` stands for the candidate order actually attempted for a slot:
in the source it is `base_shifts` shuffled by the unseeded RNG and then
stable-sorted by descending score, so it is a function of the slot and
the current draft (plus the hidden RNG, which the embedding quantifies
over by taking the order as an input). -/
structure SolveContext where
  num_days : Int
  required_staffing : ReqStaffing
  target_holidays : Int
  start_day : Int
  try_order : Int → Staff → Draft → List String

/-- The inner `for shift_type in sorted_shifts` loop of
`solve_shift_puzzle` (src/app.py lines 475-487), abstracted over the
validity test, the draft write, the draft delete and the recursive call
on the remaining slots: try kinds in order; on a valid kind write it,
recurse, and on failure delete the tentative write and continue;
return FAIL when the kinds are exhausted. -/
def try_shift_types (validK : String → Draft → Bool) (put : String → Draft → Draft)
    (del : Draft → Draft) (solveRest : Draft → Bool × Draft) :
    List String → Draft → Bool × Draft
  | [], shift_draft => (false, shift_draft)
  | shift_type :: rest_types, shift_draft =>
    if validK shift_type shift_draft then
      match solveRest (put shift_type shift_draft) with
      | (true, d2) => (true, d2)
      | (false, d2) => try_shift_types validK put del solveRest rest_types (del d2)
    else
      try_shift_types validK put del solveRest rest_types shift_draft

/-- `solve_shift_puzzle` (src/app.py lines 414-487) as a state-passing
function: the Boolean is the SUCCESS/FAIL result and the draft is the
(mutated) draft after the call.  `all_staff_ids = list(shift_draft.keys())`
is recomputed per call as in the source. -/
def solve_shift_puzzle (ctx : SolveContext) : List (Int × Staff) → Draft → Bool × Draft
  | [], shift_draft => (true, shift_draft)
  | (date, staff) :: remaining_dates, shift_draft =>
    try_shift_types
      (fun st d => is_assignment_valid staff date st d ctx.num_days ctx.required_staffing
        (d.map Prod.fst) ctx.target_holidays ctx.start_day)
      (fun st d => draftPut d staff.id date st)
      (fun d => draftDel d staff.id date)
      (solve_shift_puzzle ctx remaining_dates)
      (ctx.try_order date staff shift_draft) shift_draft

/-- `total_required_nights = sum(d.get("夜", 0) for d in required_staffing.values())`
(src/app.py line 517). -/
def total_required_nights (req : ReqStaffing) : Int :=
  (req.map (fun p =>
    match p.2.find? (fun q => q.1 == "夜") with
    | some q => q.2
    | none => 0)).sum

/-- `current_assigned_nights` (src/app.py line 518): all 夜 entries of
all staff drafts. -/
def count_assigned_nights (dr : Draft) : Nat :=
  (dr.map (fun p => (p.2.filter (fun q => q.2 == "夜")).length)).sum

/-- The candidate-start-date scan of `assign_night_shift_sets`
(src/app.py lines 532-540): dates `start_date + i`, `i < num_days - 2`,
where the whole 夜→明→休 triple passes the validator against the current
draft. -/
def night_triple_candidates (staff : Staff) (dr : Draft) (start_date : Int)
    (num_days : Nat) (req : ReqStaffing) (ids : List Nat) (target : Int) : List Int :=
  (List.range (num_days - 2)).filterMap (fun i =>
    if is_assignment_valid staff (start_date + i) "夜" dr (num_days : Int) req ids target start_date
        ∧ is_assignment_valid staff (start_date + i + 1) "明" dr (num_days : Int) req ids target start_date
        ∧ is_assignment_valid staff (start_date + i + 2) "休" dr (num_days : Int) req ids target start_date
    then some (start_date + (i : Int)) else none)

/-- One iteration of the `while True` loop of `assign_night_shift_sets`
(src/app.py lines 515-567).  `none` means the loop breaks (required
nights reached, or no staff has any candidate placement); `some dr'` is
the draft continuing into the next iteration.  `choice` stands for
`random.choice` on the chosen staff's candidate list (the embedding
quantifies over the RNG by taking it as an input); the staff picked is
the first one with the fewest candidates, as produced by the source's
stable `sorted(..., key=len)[0]`. -/
def night_loop_step (all_staff : List Staff) (dr : Draft) (start_date end_date : Int)
    (num_days : Nat) (req : ReqStaffing) (target : Int) (choice : List Int → Int) :
    Option Draft :=
  let night_shift_staff := all_staff.filter
    (fun s => (["正規職員", "嘱託職員"] : List String).contains s.employment_type)
  let all_staff_ids := all_staff.map (fun s => s.id)
  if (count_assigned_nights dr : Int) ≥ total_required_nights req then none
  else
    let placements := night_shift_staff.filterMap (fun s =>
      let pot := night_triple_candidates s dr start_date num_days req all_staff_ids target
      if pot.isEmpty then none else some (s.id, pot))
    match placements with
    | [] => none
    | p :: ps =>
      let chosen := ps.foldl (fun best y => if y.2.length < best.2.length then y else best) p
      if chosen.2.isEmpty then none
      else
        let place_date := choice chosen.2
        let dr1 := draftPut dr chosen.1 place_date "夜"
        let dr2 := if place_date + 1 ≤ end_date then draftPut dr1 chosen.1 (place_date + 1) "明" else dr1
        let dr3 := if place_date + 2 ≤ end_date then draftPut dr2 chosen.1 (place_date + 2) "休" else dr2
        some dr3

/-- A persisted `shifts` row restricted to the fields the seeding reads. -/
structure StoredShift where
  staff_id : Nat
  date : Int
  shift_type : String

/-- The seeding loop body of `generate_shifts` (src/app.py lines 594-596):
copy each fetched row whose staff id is a draft key into the draft. -/
def seed_apply : List StoredShift → Draft → Draft
  | [], dr => dr
  | sh :: rest, dr =>
    seed_apply rest
      (if (dr.map Prod.fst).contains sh.staff_id then draftPut dr sh.staff_id sh.date sh.shift_type
       else dr)

/-- The draft seeding of `generate_shifts` (src/app.py lines 590-596):
start from an empty dict per staff, fetch the stored shifts with
`date.between(prev_month_end, end_date)` where
`prev_month_end = start_date - timedelta(days=1)`, and copy them in. -/
def seed_draft (all_staff_ids : List Nat) (stored : List StoredShift)
    (start_date end_date : Int) : Draft :=
  seed_apply
    (stored.filter (fun sh => start_date - 1 ≤ sh.date && sh.date ≤ end_date))
    (all_staff_ids.map (fun i => (i, ([] : StaffDraft))))

/-- The request body of `POST /api/shifts/generate` restricted to the
fields read by the guard (`data.get('year')`, `data.get('month')`);
the remaining fields are consumed by the solve continuation. -/
structure GenerateRequest where
  year : Option Int
  month : Option Int

/-- Python truthiness of `data.get(...)` for an integer-or-absent field:
`None` and `0` are falsy. -/
def int_truthy : Option Int → Bool
  | none => false
  | some v => !(v == 0)

/-- The guard of `generate_shifts` (src/app.py lines 576-581): reject
with HTTP 400 and an untouched store when `not year or not month`,
otherwise hand the store to the rest of the handler (lines 584-681,
abstracted as `run_solve`).  The result is (HTTP status, store after). -/
def generate_shifts (req : GenerateRequest) (store : List StoredShift)
    (run_solve : List StoredShift → Nat × List StoredShift) : Nat × List StoredShift :=
  if !(int_truthy req.year) || !(int_truthy req.month) then (400, store)
  else run_solve store

/-- The cell (sid, d) is unassigned in the draft (in every entry of the
association list carrying that staff id). -/
abbrev cellUnassigned (dr : Draft) (sid : Nat) (d : Int) : Prop :=
  ∀ p ∈ dr, p.1 = sid → dGet p.2 d = none

/-- The dictionary key of a search slot: (staff id, date). -/
def slotKey : (Int × Staff) → Nat × Int := fun s => (s.2.id, s.1)

/-!  ## Lemmas about the draft dictionaries  -/

theorem dGet_nil (d : Int) : dGet [] d = none := rfl

theorem dGet_cons (q : Int × String) (l : StaffDraft) (d : Int) :
    dGet (q :: l) d = if (q.1 == d) = true then some q.2 else dGet l d := by
  unfold dGet
  rw [List.find?_cons]
  by_cases hq : (q.1 == d) = true <;> simp [hq]

theorem dGet_mapPut_self (m : StaffDraft) (d : Int) (v : String)
    (h : m.any (fun p => p.1 == d) = true) :
    dGet (m.map (fun p => if (p.1 == d) = true then (p.1, v) else p)) d = some v := by
  induction m with
  | nil => simp at h
  | cons p rest ih =>
    rw [List.map_cons, dGet_cons]
    by_cases hp : (p.1 == d) = true
    · rw [if_pos hp, if_pos hp]
    · rw [if_neg hp, if_neg hp]
      refine ih ?_
      rw [List.any_cons] at h
      rcases Bool.or_eq_true_iff.mp h with h0 | h0
      · exact absurd h0 hp
      · exact h0

theorem dGet_mapPut_ne (m : StaffDraft) (d d' : Int) (v : String) (h : d' ≠ d) :
    dGet (m.map (fun p => if (p.1 == d) = true then (p.1, v) else p)) d' = dGet m d' := by
  induction m with
  | nil => rfl
  | cons p rest ih =>
    rw [List.map_cons, dGet_cons, dGet_cons]
    by_cases hp : (p.1 == d) = true
    · rw [if_pos hp]
      have hp' : ¬(p.1 == d') = true :=
        fun e => h (by rw [← eq_of_beq e]; exact eq_of_beq hp)
      rw [if_neg hp', if_neg hp']
      exact ih
    · rw [if_neg hp]
      by_cases hp' : (p.1 == d') = true
      · rw [if_pos hp', if_pos hp']
      · rw [if_neg hp', if_neg hp', ih]

theorem dGet_append_single_self (m : StaffDraft) (d : Int) (v : String)
    (h : m.any (fun p => p.1 == d) = false) :
    dGet (m ++ [(d, v)]) d = some v := by
  induction m with
  | nil =>
    rw [List.nil_append, dGet_cons]
    rw [if_pos (by simp : ((((d, v) : Int × String)).1 == d) = true)]
  | cons p rest ih =>
    rw [List.cons_append, dGet_cons]
    rw [List.any_cons, Bool.or_eq_false_iff] at h
    rw [if_neg (by rw [h.1]; exact Bool.false_ne_true)]
    exact ih h.2

theorem dGet_append_single_ne (m : StaffDraft) (d d' : Int) (v : String) (h : d' ≠ d) :
    dGet (m ++ [(d, v)]) d' = dGet m d' := by
  induction m with
  | nil =>
    rw [List.nil_append, dGet_cons]
    rw [if_neg ((by
      simp only [beq_iff_eq]
      exact fun e => h e.symm : ¬((d : Int) == d') = true) :
      ¬((((d, v) : Int × String)).1 == d') = true)]
  | cons p rest ih =>
    rw [List.cons_append, dGet_cons, dGet_cons]
    by_cases hp' : (p.1 == d') = true
    · rw [if_pos hp', if_pos hp']
    · rw [if_neg hp', if_neg hp', ih]

theorem dGet_dPut_self (m : StaffDraft) (d : Int) (v : String) :
    dGet (dPut m d v) d = some v := by
  unfold dPut
  by_cases h : m.any (fun p => p.1 == d) = true
  · rw [if_pos h]
    exact dGet_mapPut_self m d v h
  · rw [if_neg h]
    exact dGet_append_single_self m d v (by rwa [Bool.not_eq_true] at h)

theorem dGet_dPut_ne (m : StaffDraft) (d d' : Int) (v : String) (h : d' ≠ d) :
    dGet (dPut m d v) d' = dGet m d' := by
  unfold dPut
  by_cases hany : m.any (fun p => p.1 == d) = true
  · rw [if_pos hany]
    exact dGet_mapPut_ne m d d' v h
  · rw [if_neg hany]
    exact dGet_append_single_ne m d d' v h

theorem draftOf_cons (q : Nat × StaffDraft) (l : Draft) (sid : Nat) :
    draftOf (q :: l) sid = if (q.1 == sid) = true then q.2 else draftOf l sid := by
  unfold draftOf
  rw [List.find?_cons]
  by_cases hq : (q.1 == sid) = true <;> simp [hq]

theorem draftPut_cons (q : Nat × StaffDraft) (l : Draft) (sid : Nat) (d : Int) (v : String) :
    draftPut (q :: l) sid d v
      = (if (q.1 == sid) = true then (q.1, dPut q.2 d v) else q) :: draftPut l sid d v := rfl

theorem draftOf_init (ids : List Nat) (sid : Nat) :
    draftOf (ids.map (fun i => (i, ([] : StaffDraft)))) sid = [] := by
  induction ids with
  | nil => rfl
  | cons i rest ih =>
    rw [List.map_cons, draftOf_cons]
    by_cases hi : ((i : Nat) == sid) = true
    · rw [if_pos hi]
    · rw [if_neg hi]
      exact ih

theorem keys_draftPut (dr : Draft) (sid : Nat) (d : Int) (v : String) :
    (draftPut dr sid d v).map Prod.fst = dr.map Prod.fst := by
  induction dr with
  | nil => rfl
  | cons p rest ih =>
    rw [draftPut_cons, List.map_cons, List.map_cons, ih]
    congr 1
    by_cases hp : (p.1 == sid) = true <;> simp [hp]

theorem draftOf_draftPut_self (dr : Draft) (sid : Nat) (d : Int) (v : String)
    (h : sid ∈ dr.map Prod.fst) :
    draftOf (draftPut dr sid d v) sid = dPut (draftOf dr sid) d v := by
  induction dr with
  | nil => simp at h
  | cons p rest ih =>
    rw [draftPut_cons, draftOf_cons, draftOf_cons]
    by_cases hp : (p.1 == sid) = true
    · rw [if_pos hp, if_pos hp, if_pos hp]
    · rw [if_neg hp, if_neg hp, if_neg hp]
      refine ih ?_
      rw [List.map_cons, List.mem_cons] at h
      rcases h with h0 | h0
      · exact absurd (by simp [h0]) hp
      · exact h0

theorem draftOf_draftPut_ne (dr : Draft) (sid sid' : Nat) (d : Int) (v : String)
    (h : sid' ≠ sid) :
    draftOf (draftPut dr sid d v) sid' = draftOf dr sid' := by
  induction dr with
  | nil => rfl
  | cons p rest ih =>
    rw [draftPut_cons, draftOf_cons, draftOf_cons]
    by_cases hp : (p.1 == sid) = true
    · rw [if_pos hp]
      have hp' : ¬(p.1 == sid') = true :=
        fun e => h (by rw [← eq_of_beq e]; exact eq_of_beq hp)
      rw [if_neg hp', if_neg hp']
      exact ih
    · rw [if_neg hp]
      by_cases hp' : (p.1 == sid') = true
      · rw [if_pos hp', if_pos hp']
      · rw [if_neg hp', if_neg hp', ih]

/-!  ## Theorems about the draft seeding (claim C5)  -/

theorem keys_seed_apply (l : List StoredShift) (dr : Draft) :
    (seed_apply l dr).map Prod.fst = dr.map Prod.fst := by
  induction l generalizing dr with
  | nil => rfl
  | cons sh rest ih =>
    simp only [seed_apply]
    rw [ih]
    split_ifs with h
    · exact keys_draftPut dr sh.staff_id sh.date sh.shift_type
    · rfl

theorem seed_apply_assigned (l : List StoredShift) (dr : Draft) (sid : Nat) (d : Int) :
    dGet (draftOf (seed_apply l dr) sid) d ≠ none
      ↔ dGet (draftOf dr sid) d ≠ none
        ∨ (sid ∈ dr.map Prod.fst ∧ ∃ sh ∈ l, sh.staff_id = sid ∧ sh.date = d) := by
  induction l generalizing dr with
  | nil => simp [seed_apply]
  | cons sh rest ih =>
    simp only [seed_apply]
    rw [ih]
    by_cases hc : ((dr.map Prod.fst).contains sh.staff_id) = true
    · rw [if_pos hc, keys_draftPut]
      have hG : dGet (draftOf (draftPut dr sh.staff_id sh.date sh.shift_type) sid) d ≠ none
          ↔ dGet (draftOf dr sid) d ≠ none
            ∨ (sh.staff_id = sid ∧ sh.date = d) := by
        by_cases hsid : sh.staff_id = sid
        · have hmem : sid ∈ dr.map Prod.fst := by
            rw [← hsid]
            simpa using hc
          rw [hsid, draftOf_draftPut_self dr sid sh.date sh.shift_type hmem]
          by_cases hd : sh.date = d
          · rw [hd, dGet_dPut_self]
            simp [hsid, hd]
          · rw [dGet_dPut_ne _ _ _ _ (fun e => hd e.symm)]
            simp [hsid, hd]
        · rw [draftOf_draftPut_ne dr sh.staff_id sid sh.date sh.shift_type
            (fun e => hsid e.symm)]
          simp [hsid]
      rw [hG]
      simp only [List.mem_cons]
      constructor
      · rintro ((hx | ⟨hs, hd⟩) | ⟨hm, sh', hsh', hP⟩)
        · exact Or.inl hx
        · refine Or.inr ⟨by rw [← hs]; simpa using hc, sh, Or.inl rfl, hs, hd⟩
        · exact Or.inr ⟨hm, sh', Or.inr hsh', hP⟩
      · rintro (hx | ⟨hm, sh', (rfl | hsh'), hP⟩)
        · exact Or.inl (Or.inl hx)
        · exact Or.inl (Or.inr hP)
        · exact Or.inr ⟨hm, sh', hsh', hP⟩
    · rw [if_neg hc]
      constructor
      · rintro (hx | ⟨hm, sh', hsh', hP⟩)
        · exact Or.inl hx
        · exact Or.inr ⟨hm, sh', List.mem_cons_of_mem sh hsh', hP⟩
      · rintro (hx | ⟨hm, sh', hsh', hP⟩)
        · exact Or.inl hx
        · rcases List.mem_cons.mp hsh' with rfl | hsh''
          · exact absurd (by rw [hP.1]; simpa using hm :
              (dr.map Prod.fst).contains sh'.staff_id = true) hc
          · exact Or.inr ⟨hm, sh', hsh'', hP⟩

/-- C5 counterexample: the claim says the draft is seeded with exactly
the stored shifts of the last two days of the previous month, but the
source fetches `Shift.date.between(prev_month_end, end_date)` with
`prev_month_end = start_date - 1` (src/app.py lines 590-591): a stored
shift on the second-to-last day of the previous month (start - 2) is
not copied, while a stored shift inside the target month (day 4) is. -/
theorem seeding_window_counterexample :
    dGet (draftOf (seed_draft [1] [⟨1, -2, "早"⟩, ⟨1, 3, "中"⟩] 0 27) 1) (-2) = none
    ∧ dGet (draftOf (seed_draft [1] [⟨1, -2, "早"⟩, ⟨1, 3, "中"⟩] 0 27) 1) 3 = some "中" := by
  refine ⟨by decide, by decide⟩

/-- C5 (amended): the seeded draft holds an entry for (staff, date)
exactly when the staff id is known and some stored shift row for that
staff is dated in the window from the last day of the previous month
(start - 1) through the last day of the target month: one trailing day
of the previous month plus any already-stored rows of the target month,
and nothing else. -/
theorem seed_draft_assigned_iff (ids : List Nat) (stored : List StoredShift)
    (start_date end_date : Int) (sid : Nat) (d : Int) :
    dGet (draftOf (seed_draft ids stored start_date end_date) sid) d ≠ none
      ↔ sid ∈ ids ∧ start_date - 1 ≤ d ∧ d ≤ end_date
        ∧ ∃ sh ∈ stored, sh.staff_id = sid ∧ sh.date = d := by
  unfold seed_draft
  rw [seed_apply_assigned]
  rw [draftOf_init, dGet_nil]
  have hkeys : (List.map (fun i => (i, ([] : StaffDraft))) ids).map Prod.fst = ids := by
    rw [List.map_map]
    exact List.map_id ids
  rw [hkeys]
  simp only [ne_eq, not_true_eq_false, false_or]
  constructor
  · rintro ⟨hm, sh, hsh, hP⟩
    rw [List.mem_filter] at hsh
    have hb := hsh.2
    rw [Bool.and_eq_true, decide_eq_true_eq, decide_eq_true_eq] at hb
    exact ⟨hm, hP.2 ▸ hb.1, hP.2 ▸ hb.2, sh, hsh.1, hP⟩
  · rintro ⟨hm, h1, h2, sh, hsh, hP⟩
    refine ⟨hm, sh, List.mem_filter.mpr ⟨hsh, ?_⟩, hP⟩
    rw [Bool.and_eq_true, decide_eq_true_eq, decide_eq_true_eq]
    exact ⟨hP.2 ▸ h1, hP.2 ▸ h2⟩

/-!  ## Theorems about the validator's post-night rules (claims C1, C10)  -/

set_option maxHeartbeats 1000000 in
/-- C10: `after` (明) is admissible only immediately after a night: when
the draft does not hold 夜 for the staff on the previous day, the
validator rejects 明 (src/app.py lines 357-358). -/
theorem after_only_follows_night (staff : Staff) (date : Int) (shift_draft : Draft)
    (num_days : Int) (required_staffing : ReqStaffing) (all_staff_ids : List Nat)
    (target_holidays start_day : Int)
    (hprev : dGet (draftOf shift_draft staff.id) (date - 1) ≠ some "夜") :
    is_assignment_valid staff date "明" shift_draft num_days required_staffing
      all_staff_ids target_holidays start_day = false := by
  unfold is_assignment_valid
  split_ifs with h1 h2 <;> first
    | rfl
    | exact absurd ⟨rfl, hprev⟩ h2

/-- Witness for `after_only_follows_night` at a concrete input. -/
theorem after_only_follows_night_witness :
    is_assignment_valid ⟨7, "", "", []⟩ 0 "明" [(7, [])] 30 [] [7] 8 0 = false :=
  after_only_follows_night ⟨7, "", "", []⟩ 0 [(7, [])] 30 [] [7] 8 0 (by decide)

/-- C1 counterexample: the claim says that after a 夜 every kind other
than 明 is rejected, but the source (line 360, `shift_type not in
["明", "休"]`) also admits 休: here the previous day holds 夜, the
candidate kind is 休 ≠ 明, and the validator accepts. -/
theorem night_then_holiday_accepted :
    dGet (draftOf [(5, [(-1, "夜")])] 5) (0 - 1) = some "夜"
    ∧ ("休" : String) ≠ "明"
    ∧ is_assignment_valid ⟨5, "", "", []⟩ 0 "休" [(5, [(-1, "夜")])] 30 [] [5] 8 0 = true := by
  refine ⟨by decide, by decide, by decide⟩

set_option maxHeartbeats 1000000 in
/-- C1 (amended): if the draft assigns 夜 to the staff on the previous
day, the validator rejects every kind other than 明 or 休
(src/app.py lines 360-361). -/
theorem night_next_day_restricted (staff : Staff) (date : Int) (shift_type : String)
    (shift_draft : Draft) (num_days : Int) (required_staffing : ReqStaffing)
    (all_staff_ids : List Nat) (target_holidays start_day : Int)
    (hprev : dGet (draftOf shift_draft staff.id) (date - 1) = some "夜")
    (h1 : shift_type ≠ "明") (h2 : shift_type ≠ "休") :
    is_assignment_valid staff date shift_type shift_draft num_days required_staffing
      all_staff_ids target_holidays start_day = false := by
  unfold is_assignment_valid
  split_ifs with g1 g2 g3 <;> first
    | rfl
    | exact absurd ⟨hprev, by simp [h1, h2]⟩ g3

/-- Witness for `night_next_day_restricted` at a concrete input. -/
theorem night_next_day_restricted_witness :
    is_assignment_valid ⟨5, "", "", []⟩ 0 "早" [(5, [(-1, "夜")])] 30 [] [5] 8 0 = false :=
  night_next_day_restricted ⟨5, "", "", []⟩ 0 "早" [(5, [(-1, "夜")])] 30 [] [5] 8 0
    (by decide) (by decide) (by decide)

/-!  ## Theorems about the staffing ceiling (claim C3)  -/

/-- C3 counterexample: the claim says a WORK kind is rejected whenever
`cur >= req` with `req` defaulting to 0, so a kind with no requirement
entry could never be assigned; but the source (line 400) only checks the
ceiling when `required_count > 0`: with an empty `required_staffing`
(req = 0, cur = 0 >= 0) the validator accepts the WORK kind 早. -/
theorem work_without_requirement_accepted :
    reqCount [] 0 "早" = 0
    ∧ (count_assigned_kind [(5, ([] : StaffDraft))] [5] 0 "早" : Int) ≥ reqCount [] 0 "早"
    ∧ is_assignment_valid ⟨5, "", "", []⟩ 0 "早" [(5, [])] 30 [] [5] 8 0 = true := by
  refine ⟨by decide, by decide, by decide⟩

set_option maxHeartbeats 1000000 in
/-- C3 (amended): for a WORK kind whose required count for the date is
positive, the validator rejects the placement whenever the number of
staff already assigned that kind on that date has reached the required
count (src/app.py lines 395-403); when the requirement is absent or
zero the staffing check is skipped entirely. -/
theorem staffing_ceiling (staff : Staff) (date : Int) (shift_type : String)
    (shift_draft : Draft) (num_days : Int) (required_staffing : ReqStaffing)
    (all_staff_ids : List Nat) (target_holidays start_day : Int)
    (hw : shift_type ∈ work_shifts)
    (hr : reqCount required_staffing date shift_type > 0)
    (hc : (count_assigned_kind shift_draft all_staff_ids date shift_type : Int)
      ≥ reqCount required_staffing date shift_type) :
    is_assignment_valid staff date shift_type shift_draft num_days required_staffing
      all_staff_ids target_holidays start_day = false := by
  unfold is_assignment_valid
  split_ifs with g1 g2 g3 g4 g5 g6 g7 g8 g9 <;> first
    | rfl
    | exact absurd ⟨hw, hr, hc⟩ g9

/-- Witness for `staffing_ceiling` at a concrete input: 早 is required
once on the date and one other staff already holds it. -/
theorem staffing_ceiling_witness :
    is_assignment_valid ⟨3, "正規職員", "", []⟩ 0 "早" [(3, []), (4, [(0, "早")])] 30
      [(0, [("早", 1)])] [3, 4] 8 0 = false :=
  staffing_ceiling ⟨3, "正規職員", "", []⟩ 0 "早" [(3, []), (4, [(0, "早")])] 30
    [(0, [("早", 1)])] [3, 4] 8 0 (by decide) (by decide) (by decide)

/-!  ## Theorems about the holiday quota (claim C4)  -/

/-- C4 counterexample: the claim computes `remaining` as
`month_days - assigned` (dated entries of the staff's draft), but the
source (line 387) computes `remaining_days = num_days - date.day + 1`.
Here the staff's draft carries two prior-month entries, so the claim's
`remaining = 30 - 2 = 28` is below `need = 29 - 0 = 29` and the claim
demands rejection of the WORK kind 早 on day 1; the validator accepts. -/
theorem quota_remaining_uses_calendar_days :
    ((30 : Int) - (([( -1, "早"), (-2, "早")] : StaffDraft).length : Int)
        < 29 - (count_holidays [(-1, "早"), (-2, "早")] : Int))
    ∧ is_assignment_valid ⟨5, "", "", []⟩ 0 "早" [(5, [(-1, "早"), (-2, "早")])] 30 [] [5] 29 0
        = true := by
  refine ⟨by decide, by decide⟩

set_option maxHeartbeats 1000000 in
/-- C4 (amended): with `h` the 休 count of the staff's draft and
`remaining = num_days - date.day + 1` (calendar days from `date` to the
end of the month, src/app.py line 387), the validator rejects 休
whenever `h ≥ target_holidays`, and rejects every kind other than 休
(in particular every WORK kind) whenever `remaining < target_holidays - h`
(src/app.py lines 384-393).  The rejection of 休 holds whenever the
quota is reached but is not an exact characterization: other rules can
also reject 休. -/
theorem holiday_quota_checks (staff : Staff) (date : Int) (shift_type : String)
    (shift_draft : Draft) (num_days : Int) (required_staffing : ReqStaffing)
    (all_staff_ids : List Nat) (target_holidays start_day : Int) :
    (shift_type = "休" →
      (count_holidays (draftOf shift_draft staff.id) : Int) ≥ target_holidays →
      is_assignment_valid staff date shift_type shift_draft num_days required_staffing
        all_staff_ids target_holidays start_day = false)
    ∧ (shift_type ≠ "休" →
      num_days - (date - start_day + 1) + 1
          < target_holidays - (count_holidays (draftOf shift_draft staff.id) : Int) →
      is_assignment_valid staff date shift_type shift_draft num_days required_staffing
        all_staff_ids target_holidays start_day = false) := by
  constructor
  · intro hk hq
    unfold is_assignment_valid
    split_ifs with g1 g2 g3 g4 g5 g6 g7 <;> first
      | rfl
      | exact absurd ⟨hk, hq⟩ g7
  · intro hk hr
    unfold is_assignment_valid
    split_ifs with g1 g2 g3 g4 g5 g6 g7 g8 <;> first
      | rfl
      | exact absurd ⟨hk, hr⟩ g8

/-- Witness for `holiday_quota_checks` at concrete inputs: 休 is
rejected once the quota (1) is already met, and 早 is rejected on day 1
of a 30-day month when 50 holidays are still needed. -/
theorem holiday_quota_checks_witness :
    is_assignment_valid ⟨6, "", "", []⟩ 0 "休" [(6, [(-1, "休")])] 30 [] [6] 1 0 = false
    ∧ is_assignment_valid ⟨6, "", "", []⟩ 0 "早" [(6, [])] 30 [] [6] 50 0 = false :=
  ⟨(holiday_quota_checks ⟨6, "", "", []⟩ 0 "休" [(6, [(-1, "休")])] 30 [] [6] 1 0).1
      rfl (by decide),
   (holiday_quota_checks ⟨6, "", "", []⟩ 0 "早" [(6, [])] 30 [] [6] 50 0).2
      (by decide) (by decide)⟩

/-!  ## Theorems about the weekly-hours cap (claim C2)  -/

/-- C2 counterexample: the claim says the validator rejects a placement
whenever `current_hours + HOURS[kind] > (month_days / 7) * 40`, but no
such check exists anywhere in `is_assignment_valid` (src/app.py lines
338-412): in a 7-day span (cap 40h) a staff with 32h already drafted is
allowed to take 夜 (16h), reaching 48h. -/
theorem hours_cap_counterexample :
    shift_hours_total (draftOf [(6, [(0, "早"), (1, "早"), (2, "休"), (3, "早"), (4, "早")])] 6)
        + shift_hours "夜" > 7 / 7 * 40
    ∧ is_assignment_valid ⟨6, "正規職員", "", []⟩ 5 "夜"
        [(6, [(0, "早"), (1, "早"), (2, "休"), (3, "早"), (4, "早")])] 7 [] [6] 1 0 = true := by
  refine ⟨by decide, by decide⟩

/-- C2 (amended): the validator imposes no weekly-hours cap; there are
inputs whose current hours plus the candidate kind's hours exceed
`(num_days / 7) * 40` and which `is_assignment_valid` accepts (workload
is only damped by the soft scoring penalty of `solve_shift_puzzle`,
src/app.py lines 458-467, which is not a hard constraint). -/
theorem hours_cap_not_enforced :
    ∃ (staff : Staff) (date : Int) (shift_type : String) (shift_draft : Draft)
      (num_days : Int) (required_staffing : ReqStaffing) (all_staff_ids : List Nat)
      (target_holidays start_day : Int),
      shift_hours_total (draftOf shift_draft staff.id) + shift_hours shift_type
          > num_days / 7 * 40
      ∧ is_assignment_valid staff date shift_type shift_draft num_days required_staffing
          all_staff_ids target_holidays start_day = true := by
  exact ⟨⟨6, "正規職員", "", []⟩, 5, "夜",
    [(6, [(0, "早"), (1, "早"), (2, "休"), (3, "早"), (4, "早")])], 7, [], [6], 1, 0,
    by decide, by decide⟩

/-!  ## Theorems about the request guard (claim C8)  -/

/-- C8: when the `year` or the `month` field is missing from the solve
request, `generate_shifts` answers HTTP 400 and leaves the shift store
unchanged (src/app.py lines 576-581; the rejection happens before any
database write). -/
theorem missing_year_month_rejected (req : GenerateRequest) (store : List StoredShift)
    (run_solve : List StoredShift → Nat × List StoredShift)
    (h : req.year = none ∨ req.month = none) :
    generate_shifts req store run_solve = (400, store) := by
  rcases h with h | h <;> simp [generate_shifts, int_truthy, h]

/-- Witness for `missing_year_month_rejected` with a concrete request
missing `year` over a continuation that would answer 200 and clear the
store. -/
theorem missing_year_month_rejected_witness :
    generate_shifts ⟨none, some 5⟩ [⟨1, 0, "早"⟩] (fun _ => (200, [])) = (400, [⟨1, 0, "早"⟩]) :=
  missing_year_month_rejected ⟨none, some 5⟩ [⟨1, 0, "早"⟩] (fun _ => (200, []))
    (Or.inl rfl)

/-!  ## Theorems about the scorer's shortage bonus (claim C6)  -/

theorem scoreAdd_cons (q : String × Int) (l : List (String × Int)) (k : String) (v : Int) :
    scoreAdd (q :: l) k v
      = (if (q.1 == k) = true then (q.1, q.2 + v) else q) :: scoreAdd l k v := rfl

theorem scoreGet_cons (q : String × Int) (l : List (String × Int)) (k : String) :
    scoreGet (q :: l) k = if (q.1 == k) = true then q.2 else scoreGet l k := by
  unfold scoreGet
  rw [List.find?_cons]
  by_cases hq : (q.1 == k) = true <;> simp [hq]

theorem scoreAdd_keys (sc : List (String × Int)) (k : String) (v : Int) :
    (scoreAdd sc k v).map Prod.fst = sc.map Prod.fst := by
  induction sc with
  | nil => rfl
  | cons p rest ih =>
    rw [scoreAdd_cons]
    simp only [List.map_cons, ih]
    congr 1
    by_cases h : (p.1 == k) = true <;> simp [h]

theorem scoreGet_scoreAdd_ne (sc : List (String × Int)) (k k' : String) (v : Int)
    (h : k' ≠ k) : scoreGet (scoreAdd sc k v) k' = scoreGet sc k' := by
  induction sc with
  | nil => rfl
  | cons p rest ih =>
    rw [scoreAdd_cons, scoreGet_cons, scoreGet_cons p rest k']
    by_cases hpk : (p.1 == k) = true
    · rw [if_pos hpk]
      have hpk' : (p.1 == k') = false := by
        refine beq_eq_false_iff_ne.mpr (fun he => h ?_)
        rw [← he, eq_of_beq hpk]
      rw [hpk']
      rw [if_neg Bool.false_ne_true, if_neg Bool.false_ne_true]
      exact ih
    · rw [if_neg hpk]
      by_cases hpk' : (p.1 == k') = true
      · rw [if_pos hpk', if_pos hpk']
      · rw [if_neg hpk', if_neg hpk', ih]

theorem scoreGet_scoreAdd_self (sc : List (String × Int)) (k : String) (v : Int)
    (h : k ∈ sc.map Prod.fst) : scoreGet (scoreAdd sc k v) k = scoreGet sc k + v := by
  induction sc with
  | nil => simp at h
  | cons p rest ih =>
    rw [scoreAdd_cons, scoreGet_cons, scoreGet_cons p rest k]
    by_cases hpk : (p.1 == k) = true
    · rw [if_pos hpk]
      rw [if_pos hpk, if_pos hpk]
    · rw [if_neg hpk]
      rw [if_neg hpk, if_neg hpk]
      have h' : k ∈ rest.map Prod.fst := by
        rw [List.map_cons, List.mem_cons] at h
        rcases h with h0 | h0
        · exact absurd (by simp [h0]) hpk
        · exact h0
      exact ih h'

theorem urgent_bonus_step_keys (dr : Draft) (ids : List Nat) (date : Int)
    (sc : List (String × Int)) (p : String × Int) :
    (urgent_bonus_step dr ids date sc p).map Prod.fst = sc.map Prod.fst := by
  unfold urgent_bonus_step
  split_ifs <;> simp [scoreAdd_keys]

theorem urgent_bonus_fold_keys (dr : Draft) (ids : List Nat) (date : Int)
    (l : List (String × Int)) (sc : List (String × Int)) :
    ((l.foldl (urgent_bonus_step dr ids date) sc).map Prod.fst) = sc.map Prod.fst := by
  induction l generalizing sc with
  | nil => rfl
  | cons p rest ih =>
    simp only [List.foldl_cons]
    rw [ih, urgent_bonus_step_keys]

theorem urgent_bonus_step_pos (dr : Draft) (ids : List Nat) (date : Int)
    (sc : List (String × Int)) (p : String × Int)
    (h1 : p.2 > 0) (h2 : p.1 ∈ sc.map Prod.fst)
    (h3 : (count_assigned_kind dr ids date p.1 : Int) < p.2) :
    urgent_bonus_step dr ids date sc p
      = scoreAdd sc p.1 (200 * (p.2 - (count_assigned_kind dr ids date p.1 : Int))) := by
  unfold urgent_bonus_step
  rw [if_pos ⟨h1, h2⟩, if_pos h3]

theorem urgent_bonus_step_other (dr : Draft) (ids : List Nat) (date : Int)
    (sc : List (String × Int)) (p : String × Int) (k : String) (h : p.1 ≠ k) :
    scoreGet (urgent_bonus_step dr ids date sc p) k = scoreGet sc k := by
  unfold urgent_bonus_step
  split_ifs <;> first
    | rfl
    | exact scoreGet_scoreAdd_ne sc p.1 k _ (fun e => h e.symm)

theorem urgent_bonus_fold_other (dr : Draft) (ids : List Nat) (date : Int)
    (l : List (String × Int)) (sc : List (String × Int)) (k : String)
    (h : ∀ p ∈ l, p.1 ≠ k) :
    scoreGet (l.foldl (urgent_bonus_step dr ids date) sc) k = scoreGet sc k := by
  induction l generalizing sc with
  | nil => rfl
  | cons p rest ih =>
    simp only [List.foldl_cons]
    rw [ih _ (fun q hq => h q (List.mem_cons_of_mem p hq)),
      urgent_bonus_step_other dr ids date sc p k (h p (List.mem_cons_self p rest))]

/-- C6 counterexample: the claim says the shortage bonus is
`100 × shortage`, but the source (line 441) adds `200 × shortage`:
with one 早 required, none assigned (shortage 1) the bonus is 200. -/
theorem shortage_bonus_is_200_not_100 :
    scoreGet (apply_urgent_bonus [(1, ([] : StaffDraft))] [1] 0 [(0, [("早", 1)])]
        (base_shifts.map (fun s => (s, (0 : Int))))) "早" = 200
    ∧ ((200 : Int) ≠ 100 * 1) := by
  refine ⟨by decide, by decide⟩

/-- C6 (amended): for a kind `k` appearing in `required_staffing[date]`
(with per-date kinds unique, as dict keys are) with positive required
count `r`, when `k` is a score key and the current per-day count `cur`
is below `r`, stage 1 of the scorer adds exactly `200 * (r - cur)` to
`k`'s score (src/app.py lines 432-441). -/
theorem shortage_bonus_value (dr : Draft) (ids : List Nat) (date : Int)
    (req : ReqStaffing) (sc : List (String × Int)) (k : String) (r : Int)
    (hmem : (k, r) ∈ reqLookup req date)
    (hnodup : ((reqLookup req date).map Prod.fst).Nodup)
    (hpos : r > 0) (hkey : k ∈ sc.map Prod.fst)
    (hcur : (count_assigned_kind dr ids date k : Int) < r) :
    scoreGet (apply_urgent_bonus dr ids date req sc) k
      = scoreGet sc k + 200 * (r - (count_assigned_kind dr ids date k : Int)) := by
  obtain ⟨l₁, l₂, hsplit⟩ := List.append_of_mem hmem
  unfold apply_urgent_bonus
  rw [hsplit] at hnodup ⊢
  rw [show List.map Prod.fst (l₁ ++ (k, r) :: l₂)
      = List.map Prod.fst l₁ ++ k :: List.map Prod.fst l₂ from by simp] at hnodup
  rw [List.nodup_append] at hnodup
  obtain ⟨hn1, hn2, hdisj⟩ := hnodup
  have hl₁ : ∀ p ∈ l₁, p.1 ≠ k := by
    intro p hp he
    exact hdisj (List.mem_map_of_mem Prod.fst hp) (by rw [he]; exact List.mem_cons_self _ _)
  have hl₂ : ∀ p ∈ l₂, p.1 ≠ k := by
    intro p hp he
    exact (List.nodup_cons.mp hn2).1 (by rw [← he]; exact List.mem_map_of_mem Prod.fst hp)
  rw [List.foldl_append, List.foldl_cons]
  rw [urgent_bonus_fold_other dr ids date l₂ _ k hl₂]
  have hkey' : k ∈ (l₁.foldl (urgent_bonus_step dr ids date) sc).map Prod.fst := by
    rw [urgent_bonus_fold_keys]
    exact hkey
  rw [urgent_bonus_step_pos dr ids date _ (k, r) hpos hkey' hcur,
    scoreGet_scoreAdd_self _ _ _ hkey',
    urgent_bonus_fold_other dr ids date l₁ sc k hl₁]

/-- Witness for `shortage_bonus_value` at a concrete input: one 早
required, none assigned, base scores all 0. -/
theorem shortage_bonus_value_witness :
    scoreGet (apply_urgent_bonus [(1, ([] : StaffDraft))] [1] 0 [(0, [("早", 1)])]
        (base_shifts.map (fun s => (s, (0 : Int))))) "早"
      = scoreGet (base_shifts.map (fun s => (s, (0 : Int)))) "早"
        + 200 * (1 - (count_assigned_kind [(1, ([] : StaffDraft))] [1] 0 "早" : Int)) :=
  shortage_bonus_value [(1, ([] : StaffDraft))] [1] 0 [(0, [("早", 1)])]
    (base_shifts.map (fun s => (s, (0 : Int)))) "早" 1
    (by decide) (by decide) (by decide) (by decide) (by decide)


/-!  ## Theorems about backtracking restoration (claim C7)  -/

theorem draftDel_cons (q : Nat × StaffDraft) (l : Draft) (sid : Nat) (d : Int) :
    draftDel (q :: l) sid d
      = (if (q.1 == sid) = true then (q.1, dDel q.2 d) else q) :: draftDel l sid d := rfl

theorem dDel_dPut (m : StaffDraft) (d : Int) (v : String) (h : dGet m d = none) :
    dDel (dPut m d v) d = m := by
  have hall : ∀ p ∈ m, ¬(p.1 == d) = true := by
    intro p hp
    unfold dGet at h
    rcases hf : m.find? (fun p => p.1 == d) with _ | q
    · exact List.find?_eq_none.mp hf p hp
    · rw [hf] at h
      simp at h
  have hany : m.any (fun p => p.1 == d) = false := by
    rw [List.any_eq_false]
    exact hall
  unfold dPut dDel
  rw [if_neg (by rw [hany]; exact Bool.false_ne_true)]
  rw [List.filter_append]
  have h1 : List.filter (fun p => !(p.1 == d)) [(d, v)] = [] := by simp
  rw [h1, List.append_nil]
  refine List.filter_eq_self.mpr ?_
  intro p hp
  have := hall p hp
  simp only [Bool.not_eq_true] at this
  rw [this]
  rfl

theorem draftDel_draftPut (dr : Draft) (sid : Nat) (d : Int) (v : String)
    (h : cellUnassigned dr sid d) :
    draftDel (draftPut dr sid d v) sid d = dr := by
  induction dr with
  | nil => rfl
  | cons p rest ih =>
    rw [draftPut_cons, draftDel_cons]
    by_cases hp : (p.1 == sid) = true
    · rw [if_pos hp, if_pos hp]
      rw [show (((p.1, dPut p.2 d v) : Nat × StaffDraft)).2 = dPut p.2 d v from rfl,
        dDel_dPut p.2 d v (h p (List.mem_cons_self _ _) (eq_of_beq hp)),
        ih (fun q hq hq1 => h q (List.mem_cons_of_mem p hq) hq1)]
    · rw [if_neg hp, if_neg hp, ih (fun q hq hq1 => h q (List.mem_cons_of_mem p hq) hq1)]

theorem cellUnassigned_draftPut_ne (dr : Draft) (sid : Nat) (d : Int) (v : String)
    (sid' : Nat) (d' : Int) (hne : (sid', d') ≠ (sid, d))
    (h : cellUnassigned dr sid' d') :
    cellUnassigned (draftPut dr sid d v) sid' d' := by
  intro q hq hq1
  obtain ⟨p, hp, rfl⟩ := List.mem_map.mp hq
  by_cases hps : (p.1 == sid) = true
  · rw [if_pos hps] at hq1 ⊢
    show dGet (dPut p.2 d v) d' = none
    have hsid' : sid' = sid := by
      rw [← hq1]
      exact eq_of_beq hps
    have hd : d' ≠ d := fun e => hne (by rw [hsid', e])
    rw [dGet_dPut_ne p.2 d d' v hd]
    exact h p hp hq1
  · rw [if_neg hps] at hq1 ⊢
    exact h p hp hq1

theorem try_shift_types_restore
    (validK : String → Draft → Bool) (put : String → Draft → Draft)
    (del : Draft → Draft) (solveRest : Draft → Bool × Draft) (dr : Draft)
    (hrt : ∀ t, (solveRest (put t dr)).1 = false → del (solveRest (put t dr)).2 = dr) :
    ∀ types, (try_shift_types validK put del solveRest types dr).1 = false →
      (try_shift_types validK put del solveRest types dr).2 = dr := by
  intro types
  induction types with
  | nil => intro _; rfl
  | cons t ts ih =>
    intro hf
    by_cases hv : validK t dr = true
    · rcases hs : solveRest (put t dr) with ⟨b, d2⟩
      cases b
      · have hstep : try_shift_types validK put del solveRest (t :: ts) dr
            = try_shift_types validK put del solveRest ts (del d2) := by
          simp only [try_shift_types, if_pos hv, hs]
        rw [hstep] at hf ⊢
        have hd2 : del d2 = dr := by
          have h0 := hrt t (by rw [hs])
          rw [hs] at h0
          exact h0
        rw [hd2] at hf ⊢
        exact ih hf
      · have hstep : try_shift_types validK put del solveRest (t :: ts) dr = (true, d2) := by
          simp only [try_shift_types, if_pos hv, hs]
        rw [hstep] at hf
        exact absurd hf (by simp)
    · have hstep : try_shift_types validK put del solveRest (t :: ts) dr
          = try_shift_types validK put del solveRest ts dr := by
        simp only [try_shift_types, if_neg hv]
      rw [hstep] at hf ⊢
      exact ih hf

/-- C7 counterexample: the claim quantifies over every draft and every
slot list, but when a slot's cell is already assigned in the draft the
failed search deletes the pre-existing entry instead of restoring it:
staff 1 already holds 早 on day 10, staff 2 can take nothing (unavailable
for day kinds, not night-qualified, holiday quota 0, no night before),
so the search fails – and staff 1's stored entry is gone. -/
theorem failed_search_loses_preassigned_cell :
    (solve_shift_puzzle ⟨30, [], 0, 0, fun _ _ _ => base_shifts⟩
      [(10, ⟨1, "正規職員", "", []⟩),
       (10, ⟨2, "パート", "", [⟨3, "早", false⟩, ⟨3, "日1", false⟩, ⟨3, "日2", false⟩,
          ⟨3, "中", false⟩, ⟨3, "遅", false⟩]⟩)]
      [(1, [(10, "早")]), (2, [])]).1 = false
    ∧ (solve_shift_puzzle ⟨30, [], 0, 0, fun _ _ _ => base_shifts⟩
      [(10, ⟨1, "正規職員", "", []⟩),
       (10, ⟨2, "パート", "", [⟨3, "早", false⟩, ⟨3, "日1", false⟩, ⟨3, "日2", false⟩,
          ⟨3, "中", false⟩, ⟨3, "遅", false⟩]⟩)]
      [(1, [(10, "早")]), (2, [])]).2 ≠ [(1, [(10, "早")]), (2, [])] := by
  refine ⟨by decide, by decide⟩

/-- C7 (amended): for every candidate order, every slot list whose
(staff, date) cells are pairwise distinct and unassigned in the draft
(which is how `generate_shifts` builds the slot list), and every draft,
if `solve_shift_puzzle` returns FAIL then the draft after the call is
identical to the draft before it: every tentative assignment of the
failed search has been deleted (src/app.py lines 477, 484). -/
theorem backtracking_restores_draft (ctx : SolveContext) (slots : List (Int × Staff)) :
    ∀ dr : Draft,
      (∀ s ∈ slots, cellUnassigned dr s.2.id s.1) →
      (slots.map slotKey).Nodup →
      (solve_shift_puzzle ctx slots dr).1 = false →
      (solve_shift_puzzle ctx slots dr).2 = dr := by
  induction slots with
  | nil =>
    intro dr _ _ hf
    exact absurd hf (by simp [solve_shift_puzzle])
  | cons head rest ih =>
    obtain ⟨date, staff⟩ := head
    intro dr hfree hnd hf
    have hcell : cellUnassigned dr staff.id date :=
      hfree (date, staff) (List.mem_cons_self _ _)
    rw [List.map_cons] at hnd
    have hndrest : (rest.map slotKey).Nodup := (List.nodup_cons.mp hnd).2
    have hkey : slotKey (date, staff) ∉ rest.map slotKey := (List.nodup_cons.mp hnd).1
    rw [solve_shift_puzzle] at hf ⊢
    refine try_shift_types_restore _ _ _ _ dr ?_ _ hf
    intro t hsf
    have hfree' : ∀ s ∈ rest, cellUnassigned (draftPut dr staff.id date t) s.2.id s.1 := by
      intro s hs
      refine cellUnassigned_draftPut_ne dr staff.id date t s.2.id s.1 ?_
        (hfree s (List.mem_cons_of_mem _ hs))
      intro he
      apply hkey
      rw [show slotKey (date, staff) = (staff.id, date) from rfl, ← he]
      exact List.mem_map_of_mem slotKey hs
    rw [ih (draftPut dr staff.id date t) hfree' hndrest hsf]
    exact draftDel_draftPut dr staff.id date t hcell

/-- Witness for `backtracking_restores_draft` at a concrete failing
input: a single slot for the blocked staff 2 with an empty draft. -/
theorem backtracking_restores_draft_witness :
    (solve_shift_puzzle ⟨30, [], 0, 0, fun _ _ _ => base_shifts⟩
      [(10, ⟨2, "パート", "", [⟨3, "早", false⟩, ⟨3, "日1", false⟩, ⟨3, "日2", false⟩,
          ⟨3, "中", false⟩, ⟨3, "遅", false⟩]⟩)]
      [(2, ([] : StaffDraft))]).2 = [(2, ([] : StaffDraft))] :=
  backtracking_restores_draft ⟨30, [], 0, 0, fun _ _ _ => base_shifts⟩
    [(10, ⟨2, "パート", "", [⟨3, "早", false⟩, ⟨3, "日1", false⟩, ⟨3, "日2", false⟩,
        ⟨3, "中", false⟩, ⟨3, "遅", false⟩]⟩)]
    [(2, ([] : StaffDraft))] (by decide) (by decide) (by decide)

/-!  ## Theorems about the night-triple pre-assignment loop (claim C9)  -/

/-- C9: the claim says every iteration of the `while True` loop of
`assign_night_shift_sets` either exits or strictly increases the number
of 夜 entries, so the loop terminates.  This is false: on a reachable
input the loop body neither exits nor changes the draft at all, so the
loop runs forever.  Input: a 28-day month starting at day index 0, one
night-qualified staff (id 1), `required_staffing` asking for two 夜 on
day 1, holiday target 2, and a stored 夜 already on day 1 (seeded from
the shifts table, e.g. added by `POST /api/shifts/add` or a previous
generation).  The first conjunct shows the iteration from the seeded
draft places the triple 夜/明/休 over days 1-3 (overwriting the existing
夜, so the night count stays 1); the second shows the next iteration
reproduces the same draft (1 night < 2 required, candidates = [day 1],
idempotent writes): the loop never exits and never progresses.  The
`choice` argument is forced: the candidate list is a singleton. -/
theorem night_loop_stalls_forever :
    night_loop_step [⟨1, "正規職員", "", []⟩] [(1, [(0, "夜")])] 0 27 28
        [(0, [("夜", 2)])] 2 (fun l => l.headD 0)
      = some [(1, [(0, "夜"), (1, "明"), (2, "休")])]
    ∧ night_loop_step [⟨1, "正規職員", "", []⟩] [(1, [(0, "夜"), (1, "明"), (2, "休")])] 0 27 28
        [(0, [("夜", 2)])] 2 (fun l => l.headD 0)
      = some [(1, [(0, "夜"), (1, "明"), (2, "休")])]
    ∧ (count_assigned_nights [(1, [(0, "夜"), (1, "明"), (2, "休")])] : Int)
        < total_required_nights [(0, [("夜", 2)])] := by
  refine ⟨by decide, by decide, by decide⟩

end ShiftApp
